import Mathlib

/-!
# Study Energy server — verification of the daily accrual engine

Shallow embedding of the core of `src/server.js`: the SQLite-backed store
(`daily_stats` and `activity_log` tables), the `ensureToday` initializer,
and the `POST /api/log` accrual handler (`recordActivity`).

Modelling choices, all taken from the source:
* the `daily_stats` table is a list of rows; `UNIQUE(user_id, date)` together
  with the `ON CONFLICT ... DO UPDATE` upsert is modelled by `upsertDaily`,
  which updates matching rows in place and otherwise appends;
* `activity_log` is an append-only list ordered by insertion (rowid order);
* `points` and `energy` are rationals: JavaScript numbers flow unchanged into
  the SQLite columns (numeric affinity does not truncate non-integral values),
  and the handler does plain numeric arithmetic on them;
* the `battery_earned` / `bonus_applied` columns only ever hold 0 or 1 in the
  code, so they are Booleans here; `SUM` over them counts the true rows.
-/

/-- A row of the `daily_stats` table. -/
structure DailyStat where
  user_id : Nat
  date : String
  energy : ℚ
  battery_earned : Bool
  bonus_applied : Bool
deriving Repr, DecidableEq

/-- A row of the `activity_log` table (id/created_at omitted; list order is
insertion order, i.e. ascending id). -/
structure LogEntry where
  user_id : Nat
  type : String
  points : ℚ
  date : String
deriving Repr, DecidableEq

/-- The persistent store: the two tables the accrual engine touches. -/
structure Store where
  daily : List DailyStat
  log : List LogEntry
deriving Repr, DecidableEq

/-- Whether a daily row is the one keyed by `(u, d)`. -/
def keyMatch (u : Nat) (d : String) (r : DailyStat) : Bool :=
  r.user_id == u && r.date == d

/-- Query `SELECT * FROM daily_stats WHERE user_id = ? AND date = ?`
(statements `getDailyStats` and `getYesterday` in the source). -/
def getDailyStats (s : Store) (u : Nat) (d : String) : Option DailyStat :=
  s.daily.find? (keyMatch u d)

/-- The `DO UPDATE SET` clause of the upsert: overwrite the three value
columns, keep the key. -/
def updRow (e : ℚ) (bat bonus : Bool) (r : DailyStat) : DailyStat :=
  { r with energy := e, battery_earned := bat, bonus_applied := bonus }

/-- The `upsertDaily` prepared statement:
`INSERT ... ON CONFLICT(user_id, date) DO UPDATE SET energy, battery_earned,
bonus_applied`. On conflict the existing keyed row keeps its identity and gets
the new values; otherwise a fresh row is inserted. -/
def upsertDaily (s : Store) (u : Nat) (d : String) (e : ℚ) (bat bonus : Bool) :
    Store :=
  if s.daily.any (keyMatch u d) then
    { s with daily := s.daily.map fun r =>
        if keyMatch u d r then updRow e bat bonus r else r }
  else
    { s with daily := s.daily ++ [⟨u, d, e, bat, bonus⟩] }

/-- Statement `INSERT INTO activity_log (user_id, type, points, date) VALUES (?, ?, ?, ?)`. -/
def addLog (s : Store) (entry : LogEntry) : Store :=
  { s with log := s.log ++ [entry] }

/-- Aggregate `SUM(battery_earned)` over a user's daily rows (the `earned` column of the
`countBatteries` statement). -/
def countEarned (s : Store) (u : Nat) : Nat :=
  (s.daily.filter fun r => r.user_id == u && r.battery_earned).length

/-- Aggregate `SUM(bonus_applied)` over a user's daily rows (the `used` column of the
`countBatteries` statement). -/
def countUsed (s : Store) (u : Nat) : Nat :=
  (s.daily.filter fun r => r.user_id == u && r.bonus_applied).length

/-- The battery balance `batRow.earned - batRow.used` computed from the
`countBatteries` statement. -/
def batteryBalance (s : Store) (u : Nat) : Int :=
  (countEarned s u : Int) - (countUsed s u : Int)

/-- Query `SELECT COALESCE(SUM(points), 0) FROM activity_log WHERE user_id = ?`
(the `getTotalEnergy` statement). -/
def getTotalEnergy (s : Store) (u : Nat) : ℚ :=
  ((s.log.filter fun e => e.user_id == u).map (·.points)).sum

/-- The point deltas of the log entries attributed to `(u, d)`, in insertion
order. -/
def todayDeltas (s : Store) (u : Nat) (d : String) : List ℚ :=
  ((s.log.filter fun e => e.user_id == u && e.date == d).map (·.points))

/-- The bonus-eligibility decision inside `ensureToday` (lines 119–128 of the
source): yesterday's row exists, has `battery_earned`, and the battery balance
`earned - used` is strictly positive. -/
def bonusEligible (s : Store) (u : Nat) (yesterday : String) : Bool :=
  match getDailyStats s u yesterday with
  | some y => y.battery_earned && decide (0 < batteryBalance s u)
  | none => false

/-- Function `ensureToday(userId)` from the source. The calendar strings `today` and
`yesterday` (computed in the source from the wall clock) are passed in
explicitly. Returns the re-read row exactly as the code does (the final
`getDailyStats` re-read), paired with the updated store. -/
def ensureToday (s : Store) (u : Nat) (today yesterday : String) :
    Option DailyStat × Store :=
  match getDailyStats s u today with
  | some stats => (some stats, s)
  | none =>
    let bonusApplied : Bool := bonusEligible s u yesterday
    let startEnergy : ℚ := if bonusApplied then 20 else 0
    let s1 := upsertDaily s u today startEnergy false bonusApplied
    let s2 := if bonusApplied then addLog s1 ⟨u, "Battery Bonus", 20, today⟩
              else s1
    (getDailyStats s2 u today, s2)

/-- Constant `BAT_GOAL` from the `/api/log` handler. -/
def BAT_GOAL : ℚ := 65

/-- The JSON body of the `/api/log` response. -/
structure AccrualResult where
  totalEnergy : ℚ
  todayEnergy : ℚ
  batteries : Int
  batEarned : Bool
  newBattery : Bool
deriving Repr, DecidableEq

/-- The body of the `POST /api/log` handler after validation: `ensureToday`,
append the log entry, read today's row, clamp the energy, decide the battery
threshold, upsert, then compute the response aggregates. Returns `none` (never
reached from a well-formed call; proved below) when a re-read fails where the
JavaScript would dereference `undefined`. -/
def recordActivity (s : Store) (u : Nat) (today yesterday : String)
    (ty : String) (points : ℚ) : Option AccrualResult × Store :=
  let s1 := (ensureToday s u today yesterday).2
  let s2 := addLog s1 ⟨u, ty, points, today⟩
  match getDailyStats s2 u today with
  | none => (none, s2)
  | some stats =>
    let newEnergy := max 0 (stats.energy + points)
    let batEarned : Bool :=
      if decide (BAT_GOAL ≤ newEnergy) && !stats.battery_earned then true
      else stats.battery_earned
    let s3 := upsertDaily s2 u today newEnergy batEarned stats.bonus_applied
    match getDailyStats s3 u today with
    | none => (none, s3)
    | some updated =>
      (some { totalEnergy := getTotalEnergy s3 u
              todayEnergy := updated.energy
              batteries := batteryBalance s3 u
              batEarned := updated.battery_earned
              newBattery := !stats.battery_earned && updated.battery_earned },
       s3)

/-- Running a sequence of `POST /api/log` calls (type, points) for one user on
one day. -/
def runActivities (s : Store) (u : Nat) (today yesterday : String)
    (acts : List (String × ℚ)) : Store :=
  acts.foldl (fun st a => (recordActivity st u today yesterday a.1 a.2).2) s

/-- One clamped accrual step: `Math.max(0, energy + points)`. -/
def clampAdd (e p : ℚ) : ℚ := max 0 (e + p)

/-- The store produced by the write path of `POST /api/log` on a day whose row
`stats` already exists: append the activity entry, then upsert the clamped
energy, the (possibly newly set) battery flag, and the carried-over
`bonus_applied`. Used to state the characterization lemmas. -/
def accrualStore (s : Store) (u : Nat) (today ty : String) (p : ℚ)
    (stats : DailyStat) : Store :=
  upsertDaily (addLog s ⟨u, ty, p, today⟩) u today (max 0 (stats.energy + p))
    (stats.battery_earned || decide (BAT_GOAL ≤ max 0 (stats.energy + p)))
    stats.bonus_applied

/-- The `UNIQUE(user_id, date)` schema constraint on `daily_stats`, as a
property of a store. -/
def UniqDaily (s : Store) : Prop :=
  s.daily.Pairwise fun a b => a.user_id ≠ b.user_id ∨ a.date ≠ b.date

/-- Stores reachable from an empty database by the engine's mutating
operations: `ensureToday` (run by `GET /api/me` and at the start of every
`POST /api/log`, including the requests that later fail) and the full
`POST /api/log` write path. -/
inductive Reachable : Store → Prop where
  | empty : Reachable ⟨[], []⟩
  | ensure {s : Store} (u : Nat) (today yesterday : String) :
      Reachable s → Reachable (ensureToday s u today yesterday).2
  | record {s : Store} (u : Nat) (today yesterday ty : String) (p : ℚ) :
      Reachable s → Reachable (recordActivity s u today yesterday ty p).2

/-! ## Request-level values and validation

`POST /api/log` validates `req.body` with `if (!type || points === undefined)`
before touching the database. The body fields are arbitrary JSON values, so
the validation is modelled over a JavaScript value type with its truthiness. -/

/-- A JavaScript value as it can appear in a parsed JSON body field (absent
fields read as `undefined`). -/
inductive JsVal where
  | undefined
  | null
  | num (q : ℚ)
  | str (s : String)
  | jbool (b : Bool)
deriving Repr, DecidableEq

/-- JavaScript truthiness of a `JsVal` (`!x` is the negation of this). -/
def jsTruthy : JsVal → Bool
  | .undefined => false
  | .null => false
  | .num q => !(q == 0)
  | .str s => !(s == "")
  | .jbool b => b

/-- Line 202 of the source: `if (!type || points === undefined)` — the request
is rejected with HTTP 400 exactly when this is true. -/
def jsValidationRejects (ty points : JsVal) : Bool :=
  !jsTruthy ty || points == JsVal.undefined

/-- Modelled from the spec's words (§4.2 constraints): "`activityType` must be
non-empty; `points` must be a provided integer". Rejection as the spec states
it: the type is not a non-empty string, or the points value is not an
integer. Stated only to compare with `jsValidationRejects`, the rule the code
implements. -/
def specValidationRejects (ty points : JsVal) : Bool :=
  (match ty with
   | .str s => s == ""
   | _ => true) ||
  (match points with
   | .num q => decide (q.den ≠ 1)
   | _ => true)

/-- The `points` values a `POST /api/log` request can carry into the handler's
success or null path: absent (`undefined`), JSON `null`, or a number. -/
inductive ReqPoints where
  | undefined
  | null
  | num (q : ℚ)
deriving Repr, DecidableEq

/-- Outcome of a `POST /api/log` request: HTTP 400 from validation, an
uncaught SQLite error (express turns it into a 500), or the JSON result. -/
inductive ApiResponse where
  | badRequest
  | storageFailure
  | ok (r : AccrualResult)
deriving Repr, DecidableEq

/-- The `POST /api/log` route including validation, for a string `type` field.
With `points = null` the validation passes (`null !== undefined`), then
`ensureToday` runs and commits its writes, and the `activity_log` insert
violates the column's `NOT NULL` constraint: `stmts.addLog.run` throws, the
handler has no catch, and the state keeps exactly `ensureToday`'s effects. -/
def postLog (s : Store) (u : Nat) (today yesterday ty : String)
    (points : ReqPoints) : ApiResponse × Store :=
  if ty == "" || points == ReqPoints.undefined then (.badRequest, s)
  else
    match points with
    | .undefined => (.badRequest, s)
    | .null => (.storageFailure, (ensureToday s u today yesterday).2)
    | .num q =>
      match recordActivity s u today yesterday ty q with
      | (some res, s') => (.ok res, s')
      | (none, s') => (.storageFailure, s')

/-! ## Failure injection

`better-sqlite3`'s `.run` either applies its single statement or throws; the
handlers have no transactions and no try/catch, so a throw propagates and the
statements already executed stay committed. `FailSpec` says which write
statement throws; the `error` payload is the store at the moment of the
throw. -/

/-- Which of the four write statements of the `/api/log` path throws. -/
structure FailSpec where
  ensureUpsertFails : Bool
  ensureLogFails : Bool
  activityLogFails : Bool
  dailyUpsertFails : Bool
deriving Repr, DecidableEq

/-- Variant of `ensureToday` with failure injection on its two writes. -/
def ensureTodayF (f : FailSpec) (s : Store) (u : Nat) (today yesterday : String) :
    Except Store (Option DailyStat × Store) :=
  match getDailyStats s u today with
  | some stats => .ok (some stats, s)
  | none =>
    let bonusApplied : Bool := bonusEligible s u yesterday
    let startEnergy : ℚ := if bonusApplied then 20 else 0
    if f.ensureUpsertFails then .error s
    else
      let s1 := upsertDaily s u today startEnergy false bonusApplied
      if bonusApplied then
        if f.ensureLogFails then .error s1
        else
          let s2 := addLog s1 ⟨u, "Battery Bonus", 20, today⟩
          .ok (getDailyStats s2 u today, s2)
      else .ok (getDailyStats s1 u today, s1)

/-- The `POST /api/log` write path with failure injection on its writes.
Mirrors `recordActivity` statement for statement. -/
def recordActivityF (f : FailSpec) (s : Store) (u : Nat)
    (today yesterday ty : String) (p : ℚ) :
    Except Store (Option AccrualResult × Store) :=
  match ensureTodayF f s u today yesterday with
  | .error sErr => .error sErr
  | .ok (_, s1) =>
    if f.activityLogFails then .error s1
    else
      let s2 := addLog s1 ⟨u, ty, p, today⟩
      match getDailyStats s2 u today with
      | none => .ok (none, s2)
      | some stats =>
        let newEnergy := max 0 (stats.energy + p)
        let batEarned : Bool :=
          if decide (BAT_GOAL ≤ newEnergy) && !stats.battery_earned then true
          else stats.battery_earned
        if f.dailyUpsertFails then .error s2
        else
          let s3 := upsertDaily s2 u today newEnergy batEarned
            stats.bonus_applied
          match getDailyStats s3 u today with
          | none => .ok (none, s3)
          | some updated =>
            .ok (some { totalEnergy := getTotalEnergy s3 u
                        todayEnergy := updated.energy
                        batteries := batteryBalance s3 u
                        batEarned := updated.battery_earned
                        newBattery := !stats.battery_earned &&
                          updated.battery_earned }, s3)

/-! ## Basic store lemmas -/

theorem keyMatch_self (u : Nat) (d : String) (e : ℚ) (bat bonus : Bool) :
    keyMatch u d ⟨u, d, e, bat, bonus⟩ = true := by
  simp [keyMatch]

theorem keyMatch_eq {u : Nat} {d : String} {r : DailyStat}
    (h : keyMatch u d r = true) : r.user_id = u ∧ r.date = d := by
  simpa [keyMatch] using h

theorem getDailyStats_addLog (s : Store) (entry : LogEntry) (u : Nat)
    (d : String) : getDailyStats (addLog s entry) u d = getDailyStats s u d :=
  rfl

theorem log_upsertDaily (s : Store) (u : Nat) (d : String) (e : ℚ)
    (bat bonus : Bool) : (upsertDaily s u d e bat bonus).log = s.log := by
  unfold upsertDaily
  split <;> rfl

theorem getTotalEnergy_addLog_self (s : Store) (u : Nat) (ty : String) (p : ℚ)
    (d : String) :
    getTotalEnergy (addLog s ⟨u, ty, p, d⟩) u = getTotalEnergy s u + p := by
  simp [getTotalEnergy, addLog, List.filter_append]

theorem todayDeltas_addLog_self (s : Store) (u : Nat) (ty : String) (p : ℚ)
    (d : String) :
    todayDeltas (addLog s ⟨u, ty, p, d⟩) u d = todayDeltas s u d ++ [p] := by
  simp [todayDeltas, addLog, List.filter_append]

theorem todayDeltas_upsertDaily (s : Store) (u v : Nat) (d dd : String) (e : ℚ)
    (bat bonus : Bool) :
    todayDeltas (upsertDaily s u d e bat bonus) v dd = todayDeltas s v dd := by
  simp [todayDeltas, log_upsertDaily]

theorem find?_map_upd {u : Nat} {d : String} {e : ℚ} {bat bonus : Bool}
    (l : List DailyStat) (h : l.any (keyMatch u d) = true) :
    (l.map fun r => if keyMatch u d r then updRow e bat bonus r else r).find?
      (keyMatch u d) = some ⟨u, d, e, bat, bonus⟩ := by
  induction l with
  | nil => simp at h
  | cons a t ih =>
    by_cases hk : keyMatch u d a = true
    · obtain ⟨h1, h2⟩ := keyMatch_eq hk
      have hku : keyMatch u d (updRow e bat bonus a) = true := by
        simp [keyMatch, updRow, h1, h2]
      simp only [List.map_cons, hk, if_true]
      rw [List.find?_cons_of_pos _ hku]
      cases a
      simp_all [updRow]
    · have ht : t.any (keyMatch u d) = true := by
        simp only [List.any_cons, hk, Bool.false_or] at h
        exact h
      simp only [List.map_cons, hk, if_false]
      rw [List.find?_cons_of_neg _ (by simp [hk])]
      exact ih ht

theorem getDailyStats_upsertDaily_self (s : Store) (u : Nat) (d : String)
    (e : ℚ) (bat bonus : Bool) :
    getDailyStats (upsertDaily s u d e bat bonus) u d =
      some ⟨u, d, e, bat, bonus⟩ := by
  unfold getDailyStats upsertDaily
  by_cases h : s.daily.any (keyMatch u d) = true
  · simp only [h, if_true]
    exact find?_map_upd s.daily h
  · simp only [h, if_false, Bool.false_eq_true]
    have hn : s.daily.find? (keyMatch u d) = none := by
      rw [List.find?_eq_none]
      intro x hx
      exact fun hpx => h (List.any_eq_true.mpr ⟨x, hx, hpx⟩)
    rw [List.find?_append, hn, Option.none_or,
      List.find?_cons_of_pos _ (keyMatch_self u d e bat bonus)]

/-! ## `ensureToday` characterization -/

theorem ensureToday_of_exists {s : Store} {u : Nat} {today : String}
    (yesterday : String) {r : DailyStat}
    (h : getDailyStats s u today = some r) :
    ensureToday s u today yesterday = (some r, s) := by
  unfold ensureToday
  rw [h]

theorem ensureToday_fresh {s : Store} {u : Nat} {today : String}
    (yesterday : String) (h : getDailyStats s u today = none) :
    ensureToday s u today yesterday =
      (some ⟨u, today, if bonusEligible s u yesterday then 20 else 0, false,
         bonusEligible s u yesterday⟩,
       ⟨s.daily ++ [⟨u, today, if bonusEligible s u yesterday then 20 else 0,
          false, bonusEligible s u yesterday⟩],
        s.log ++ if bonusEligible s u yesterday
          then [⟨u, "Battery Bonus", 20, today⟩] else []⟩) := by
  have hany : s.daily.any (keyMatch u today) = false := by
    rw [List.any_eq_false]
    rw [getDailyStats, List.find?_eq_none] at h
    exact h
  have hself := getDailyStats_upsertDaily_self s u today
  unfold ensureToday
  rw [h]
  cases hb : bonusEligible s u yesterday
  · simp only [Bool.false_eq_true, if_false, hb]
    rw [Prod.mk.injEq]
    constructor
    · exact hself 0 false false
    · unfold upsertDaily
      simp [hany]
  · simp only [if_true, hb]
    rw [Prod.mk.injEq]
    constructor
    · rw [getDailyStats_addLog]
      exact hself 20 false true
    · unfold upsertDaily addLog
      simp [hany]

theorem ensureToday_fst (s : Store) (u : Nat) (today yesterday : String) :
    (ensureToday s u today yesterday).1 =
      getDailyStats (ensureToday s u today yesterday).2 u today := by
  unfold ensureToday
  cases h : getDailyStats s u today
  · rfl
  · simp [h]

theorem ensureToday_store_record (s : Store) (u : Nat)
    (today yesterday : String) :
    ∃ r, getDailyStats (ensureToday s u today yesterday).2 u today = some r := by
  rw [← ensureToday_fst]
  cases h : getDailyStats s u today
  · rw [ensureToday_fresh yesterday h]
    exact ⟨_, rfl⟩
  · rw [ensureToday_of_exists yesterday h]
    exact ⟨_, rfl⟩

/-! ## `recordActivity` characterization -/

theorem getTotalEnergy_upsertDaily (s : Store) (u : Nat) (d : String) (e : ℚ)
    (bat bonus : Bool) (v : Nat) :
    getTotalEnergy (upsertDaily s u d e bat bonus) v = getTotalEnergy s v := by
  simp [getTotalEnergy, log_upsertDaily]

theorem getDailyStats_accrualStore (s : Store) (u : Nat) (today ty : String)
    (p : ℚ) (stats : DailyStat) :
    getDailyStats (accrualStore s u today ty p stats) u today =
      some ⟨u, today, max 0 (stats.energy + p),
        stats.battery_earned || decide (BAT_GOAL ≤ max 0 (stats.energy + p)),
        stats.bonus_applied⟩ := by
  unfold accrualStore
  exact getDailyStats_upsertDaily_self _ u today _ _ _

theorem todayDeltas_accrualStore (s : Store) (u : Nat) (today ty : String)
    (p : ℚ) (stats : DailyStat) :
    todayDeltas (accrualStore s u today ty p stats) u today =
      todayDeltas s u today ++ [p] := by
  unfold accrualStore
  rw [todayDeltas_upsertDaily, todayDeltas_addLog_self]

theorem getTotalEnergy_accrualStore (s : Store) (u : Nat) (today ty : String)
    (p : ℚ) (stats : DailyStat) :
    getTotalEnergy (accrualStore s u today ty p stats) u =
      getTotalEnergy s u + p := by
  unfold accrualStore
  rw [getTotalEnergy_upsertDaily, getTotalEnergy_addLog_self]

theorem accrualStore_eq (s : Store) (u : Nat) (today ty : String) (p : ℚ)
    (stats : DailyStat) :
    upsertDaily (addLog s ⟨u, ty, p, today⟩) u today (max 0 (stats.energy + p))
      (stats.battery_earned || decide (BAT_GOAL ≤ max 0 (stats.energy + p)))
      stats.bonus_applied = accrualStore s u today ty p stats := rfl

theorem recordActivity_spec {s : Store} {u : Nat} {today : String}
    (yesterday ty : String) (p : ℚ) {stats : DailyStat}
    (h : getDailyStats s u today = some stats) :
    recordActivity s u today yesterday ty p =
      (some { totalEnergy := getTotalEnergy s u + p
              todayEnergy := max 0 (stats.energy + p)
              batteries := batteryBalance (accrualStore s u today ty p stats) u
              batEarned := stats.battery_earned ||
                decide (BAT_GOAL ≤ max 0 (stats.energy + p))
              newBattery := !stats.battery_earned &&
                decide (BAT_GOAL ≤ max 0 (stats.energy + p)) },
       accrualStore s u today ty p stats) := by
  have hif : (if decide (BAT_GOAL ≤ max 0 (stats.energy + p)) &&
        !stats.battery_earned then true else stats.battery_earned)
      = (stats.battery_earned ||
        decide (BAT_GOAL ≤ max 0 (stats.energy + p))) := by
    cases hbe : stats.battery_earned <;>
      cases hd : decide (BAT_GOAL ≤ max 0 (stats.energy + p)) <;>
        simp [hbe, hd]
  unfold recordActivity
  rw [ensureToday_of_exists yesterday h]
  simp only
  rw [getDailyStats_addLog, h]
  simp only
  rw [hif, accrualStore_eq, getDailyStats_accrualStore]
  simp only [getTotalEnergy_accrualStore]
  cases hbe : stats.battery_earned <;> simp [hbe]

theorem recordActivity_store {s : Store} {u : Nat} {today : String}
    (yesterday ty : String) (p : ℚ) {stats : DailyStat}
    (h : getDailyStats s u today = some stats) :
    (recordActivity s u today yesterday ty p).2 =
      accrualStore s u today ty p stats := by
  rw [recordActivity_spec yesterday ty p h]

theorem foldl_clampAdd_nonneg (l : List ℚ) :
    ∀ e : ℚ, 0 ≤ e → 0 ≤ l.foldl clampAdd e := by
  induction l with
  | nil =>
    intro e he
    simpa using he
  | cons p t ih =>
    intro e _
    rw [List.foldl_cons]
    exact ih _ (by unfold clampAdd; exact le_max_left 0 _)

theorem runActivities_cons (s : Store) (u : Nat) (today yesterday : String)
    (a : String × ℚ) (acts : List (String × ℚ)) :
    runActivities s u today yesterday (a :: acts)
      = runActivities ((recordActivity s u today yesterday a.1 a.2).2) u today
          yesterday acts := rfl

theorem runActivities_inv (u : Nat) (today yesterday : String) :
    ∀ (acts : List (String × ℚ)) (s : Store) (st : DailyStat),
      getDailyStats s u today = some st →
      ∃ st', getDailyStats (runActivities s u today yesterday acts) u today
          = some st' ∧
        st'.energy = (acts.map Prod.snd).foldl clampAdd st.energy ∧
        todayDeltas (runActivities s u today yesterday acts) u today
          = todayDeltas s u today ++ acts.map Prod.snd ∧
        st'.bonus_applied = st.bonus_applied ∧
        (st.battery_earned = true → st'.battery_earned = true) := by
  intro acts
  induction acts with
  | nil =>
    intro s st h
    exact ⟨st, h, rfl, by simp [runActivities], rfl, fun hb => hb⟩
  | cons a acts ih =>
    intro s st h
    rw [runActivities_cons, recordActivity_store yesterday a.1 a.2 h]
    obtain ⟨st', h1, h2, h3, h4, h5⟩ :=
      ih (accrualStore s u today a.1 a.2 st) _
        (getDailyStats_accrualStore s u today a.1 a.2 st)
    refine ⟨st', h1, ?_, ?_, h4, fun hb => h5 (by simp [hb])⟩
    · rw [h2]
      simp [clampAdd]
    · rw [h3, todayDeltas_accrualStore]
      simp

/-! ## Uniqueness of daily rows and balance accounting -/

theorem condUpd_user_id (u : Nat) (d : String) (e : ℚ) (bat bonus : Bool)
    (r : DailyStat) :
    (if keyMatch u d r then updRow e bat bonus r else r).user_id = r.user_id := by
  cases h : keyMatch u d r <;> simp [h, updRow]

theorem condUpd_date (u : Nat) (d : String) (e : ℚ) (bat bonus : Bool)
    (r : DailyStat) :
    (if keyMatch u d r then updRow e bat bonus r else r).date = r.date := by
  cases h : keyMatch u d r <;> simp [h, updRow]

theorem keyMatch_false {u : Nat} {d : String} {r : DailyStat}
    (h : keyMatch u d r = false) : r.user_id ≠ u ∨ r.date ≠ d := by
  by_cases h1 : r.user_id = u
  · right
    intro h2
    rw [keyMatch, h1, h2] at h
    simp at h
  · exact Or.inl h1

theorem uniq_upsertDaily {s : Store} (u : Nat) (d : String) (e : ℚ)
    (bat bonus : Bool) (hu : UniqDaily s) :
    UniqDaily (upsertDaily s u d e bat bonus) := by
  unfold UniqDaily upsertDaily
  by_cases h : s.daily.any (keyMatch u d) = true
  · rw [if_pos h]
    refine List.Pairwise.map _ ?_ hu
    intro a b hab
    rw [condUpd_user_id, condUpd_user_id, condUpd_date, condUpd_date]
    exact hab
  · rw [if_neg h]
    rw [List.pairwise_append]
    refine ⟨hu, List.pairwise_singleton _ _, ?_⟩
    intro a ha b hb
    rw [List.mem_singleton] at hb
    subst hb
    have hf : keyMatch u d a = false := by
      rw [Bool.not_eq_true] at h
      exact Bool.not_eq_true _ ▸ (List.any_eq_false.mp h) a ha
    rcases keyMatch_false hf with h1 | h1
    · exact Or.inl h1
    · exact Or.inr h1

theorem count_filter_map_upd (u : Nat) (d : String) (e : ℚ) (bat bonus : Bool)
    (q : DailyStat → Bool) :
    ∀ (l : List DailyStat),
      (l.Pairwise fun x y => x.user_id ≠ y.user_id ∨ x.date ≠ y.date) →
      ∀ a, l.find? (keyMatch u d) = some a →
      ((l.map fun r => if keyMatch u d r then updRow e bat bonus r
          else r).filter q).length + (if q a then 1 else 0)
        = (l.filter q).length + (if q (updRow e bat bonus a) then 1 else 0) := by
  intro l
  induction l with
  | nil =>
    intro _ a ha
    simp at ha
  | cons r t ih =>
    intro hp a ha
    rw [List.pairwise_cons] at hp
    by_cases hk : keyMatch u d r = true
    · rw [List.find?_cons_of_pos _ hk] at ha
      have har : a = r := (Option.some.injEq _ _ ▸ ha).symm
      subst har
      have hnm : ∀ b ∈ t, keyMatch u d b = false := by
        intro b hb
        by_contra hkb
        rw [Bool.not_eq_false] at hkb
        obtain ⟨hb1, hb2⟩ := keyMatch_eq hkb
        obtain ⟨h1, h2⟩ := keyMatch_eq hk
        rcases hp.1 b hb with hne | hne
        · exact hne (by rw [h1, hb1])
        · exact hne (by rw [h2, hb2])
      have hmt : (t.map fun r => if keyMatch u d r then updRow e bat bonus r
          else r) = t := by
        have hpt : ∀ b ∈ t,
            (if keyMatch u d b then updRow e bat bonus b else b) = id b := by
          intro b hb
          simp [hnm b hb]
        rw [List.map_congr_left hpt, List.map_id]
      simp only [List.map_cons, hk, if_true, hmt, List.filter_cons]
      by_cases hq1 : q a = true <;>
        by_cases hq2 : q (updRow e bat bonus a) = true <;>
          simp [hq1, hq2] <;> omega
    · rw [List.find?_cons_of_neg _ hk] at ha
      have hrec := ih hp.2 a ha
      simp only [List.map_cons, hk, if_false, List.filter_cons]
      by_cases hq : q r = true <;>
        by_cases hq1 : q a = true <;>
          by_cases hq2 : q (updRow e bat bonus a) = true <;>
            simp [hq, hq1, hq2] at hrec ⊢ <;> omega

theorem bonusEligible_pos {s : Store} {u : Nat} {yesterday : String}
    (h : bonusEligible s u yesterday = true) : 0 < batteryBalance s u := by
  unfold bonusEligible at h
  cases hy : getDailyStats s u yesterday with
  | none => rw [hy] at h; simp at h
  | some y =>
    rw [hy] at h
    rw [Bool.and_eq_true, decide_eq_true_iff] at h
    exact h.2

theorem countEarned_append (l : List DailyStat) (r : DailyStat)
    (lg lg' : List LogEntry) (v : Nat) :
    countEarned ⟨l ++ [r], lg⟩ v =
      countEarned ⟨l, lg'⟩ v +
        (if r.user_id == v && r.battery_earned then 1 else 0) := by
  unfold countEarned
  rw [List.filter_append, List.length_append]
  by_cases h : (r.user_id == v && r.battery_earned) = true <;> simp [h]

theorem countUsed_append (l : List DailyStat) (r : DailyStat)
    (lg lg' : List LogEntry) (v : Nat) :
    countUsed ⟨l ++ [r], lg⟩ v =
      countUsed ⟨l, lg'⟩ v +
        (if r.user_id == v && r.bonus_applied then 1 else 0) := by
  unfold countUsed
  rw [List.filter_append, List.length_append]
  by_cases h : (r.user_id == v && r.bonus_applied) = true <;> simp [h]

theorem balance_daily_eq (s s' : Store) (h : s.daily = s'.daily) (v : Nat) :
    batteryBalance s v = batteryBalance s' v := by
  unfold batteryBalance countEarned countUsed
  rw [h]

theorem balance_accrualStore {s : Store} {u : Nat} {today : String}
    (ty : String) (p : ℚ) {stats : DailyStat} (hu : UniqDaily s)
    (h : getDailyStats s u today = some stats) (v : Nat) :
    batteryBalance s v ≤ batteryBalance (accrualStore s u today ty p stats) v := by
  unfold getDailyStats at h
  have hany : (addLog s ⟨u, ty, p, today⟩).daily.any (keyMatch u today) = true := by
    rw [List.any_eq_true]
    exact ⟨stats, List.mem_of_find?_eq_some h, List.find?_some h⟩
  have hE := count_filter_map_upd u today (max 0 (stats.energy + p))
    (stats.battery_earned || decide (BAT_GOAL ≤ max 0 (stats.energy + p)))
    stats.bonus_applied (fun r => r.user_id == v && r.battery_earned)
    s.daily hu stats h
  have hU := count_filter_map_upd u today (max 0 (stats.energy + p))
    (stats.battery_earned || decide (BAT_GOAL ≤ max 0 (stats.energy + p)))
    stats.bonus_applied (fun r => r.user_id == v && r.bonus_applied)
    s.daily hu stats h
  simp only [] at hE hU
  have hredU : (if ((updRow (max 0 (stats.energy + p))
        (stats.battery_earned || decide (BAT_GOAL ≤ max 0 (stats.energy + p)))
        stats.bonus_applied stats).user_id == v &&
        (updRow (max 0 (stats.energy + p))
        (stats.battery_earned || decide (BAT_GOAL ≤ max 0 (stats.energy + p)))
        stats.bonus_applied stats).bonus_applied) = true then 1 else 0)
      = (if (stats.user_id == v && stats.bonus_applied) = true
         then (1 : Nat) else 0) := rfl
  have hredE : (if ((updRow (max 0 (stats.energy + p))
        (stats.battery_earned || decide (BAT_GOAL ≤ max 0 (stats.energy + p)))
        stats.bonus_applied stats).user_id == v &&
        (updRow (max 0 (stats.energy + p))
        (stats.battery_earned || decide (BAT_GOAL ≤ max 0 (stats.energy + p)))
        stats.bonus_applied stats).battery_earned) = true then 1 else 0)
      = (if (stats.user_id == v && (stats.battery_earned ||
          decide (BAT_GOAL ≤ max 0 (stats.energy + p)))) = true
         then (1 : Nat) else 0) := rfl
  rw [hredU] at hU
  rw [hredE] at hE
  have hle : (if (stats.user_id == v && stats.battery_earned) = true
      then (1 : Nat) else 0) ≤
      (if (stats.user_id == v && (stats.battery_earned ||
          decide (BAT_GOAL ≤ max 0 (stats.energy + p)))) = true
       then (1 : Nat) else 0) := by
    cases hbe : stats.battery_earned <;> simp [hbe]
  unfold accrualStore upsertDaily
  rw [if_pos hany]
  unfold batteryBalance countEarned countUsed
  simp only [addLog]
  omega

theorem balance_append (l : List DailyStat) (r : DailyStat)
    (lg lg' : List LogEntry) (v : Nat) :
    batteryBalance ⟨l ++ [r], lg⟩ v = batteryBalance ⟨l, lg'⟩ v
      + (if r.user_id == v && r.battery_earned then (1 : Int) else 0)
      - (if r.user_id == v && r.bonus_applied then (1 : Int) else 0) := by
  unfold batteryBalance
  rw [countEarned_append l r lg lg', countUsed_append l r lg lg']
  by_cases h1 : (r.user_id == v && r.battery_earned) = true <;>
    by_cases h2 : (r.user_id == v && r.bonus_applied) = true <;>
      simp [h1, h2] <;> push_cast <;> ring

theorem uniq_ensureToday {s : Store} (u : Nat) (today yesterday : String)
    (hu : UniqDaily s) : UniqDaily (ensureToday s u today yesterday).2 := by
  cases h : getDailyStats s u today with
  | some r =>
    rw [ensureToday_of_exists yesterday h]
    exact hu
  | none =>
    rw [ensureToday_fresh yesterday h]
    unfold UniqDaily
    dsimp only
    rw [List.pairwise_append]
    refine ⟨hu, List.pairwise_singleton _ _, ?_⟩
    intro a ha b hb
    rw [List.mem_singleton] at hb
    subst hb
    have hf : keyMatch u today a = false := by
      unfold getDailyStats at h
      rw [List.find?_eq_none] at h
      exact Bool.not_eq_true _ ▸ h a ha
    rcases keyMatch_false hf with h1 | h1
    · exact Or.inl h1
    · exact Or.inr h1

theorem balance_ensureToday {s : Store} (u : Nat) (today yesterday : String)
    (hbal : ∀ w, 0 ≤ batteryBalance s w) (v : Nat) :
    0 ≤ batteryBalance (ensureToday s u today yesterday).2 v := by
  cases h : getDailyStats s u today with
  | some r =>
    rw [ensureToday_of_exists yesterday h]
    exact hbal v
  | none =>
    rw [ensureToday_fresh yesterday h]
    dsimp only
    have hb := balance_append s.daily
      ⟨u, today, if bonusEligible s u yesterday then 20 else 0, false,
        bonusEligible s u yesterday⟩
      (s.log ++ if bonusEligible s u yesterday
          then [⟨u, "Battery Bonus", 20, today⟩] else []) s.log v
    dsimp only at hb
    rw [hb]
    have hsv : batteryBalance ⟨s.daily, s.log⟩ v = batteryBalance s v := rfl
    rw [hsv]
    by_cases huv : (u == v) = true
    · cases hel : bonusEligible s u yesterday
      · simp [huv, hel]
        exact hbal v
      · have hpos := bonusEligible_pos hel
        have huv' : u = v := by
          rwa [beq_iff_eq] at huv
        subst huv'
        simp [huv, hel]
        omega
    · simp [huv]
      exact hbal v

theorem batFlag_or (be c : Bool) :
    (if c && !be then true else be) = (be || c) := by
  cases be <;> cases c <;> rfl

theorem recordActivity_store_general (s : Store) (u : Nat)
    (today yesterday ty : String) (p : ℚ) {r : DailyStat}
    (hr : getDailyStats (ensureToday s u today yesterday).2 u today = some r) :
    (recordActivity s u today yesterday ty p).2 =
      accrualStore (ensureToday s u today yesterday).2 u today ty p r := by
  unfold recordActivity
  dsimp only
  rw [getDailyStats_addLog, hr]
  dsimp only
  rw [batFlag_or, accrualStore_eq]
  cases hx : getDailyStats (accrualStore (ensureToday s u today yesterday).2
      u today ty p r) u today <;> rfl

theorem reachable_inv {s : Store} (h : Reachable s) :
    UniqDaily s ∧ ∀ v, 0 ≤ batteryBalance s v := by
  induction h with
  | empty =>
    constructor
    · exact List.Pairwise.nil
    · intro v
      simp [batteryBalance, countEarned, countUsed]
  | ensure u today yesterday _ ih =>
    exact ⟨uniq_ensureToday u today yesterday ih.1,
      balance_ensureToday u today yesterday ih.2⟩
  | @record s u today yesterday ty p _ ih =>
    obtain ⟨r, hr⟩ := ensureToday_store_record s u today yesterday
    rw [recordActivity_store_general s u today yesterday ty p hr]
    have hu1 : UniqDaily (ensureToday s u today yesterday).2 :=
      uniq_ensureToday u today yesterday ih.1
    have hb1 := balance_ensureToday u today yesterday ih.2
    constructor
    · exact uniq_upsertDaily u today _ _ _ hu1
    · intro v
      exact le_trans (hb1 v) (balance_accrualStore ty p hu1 hr v)

theorem todayDeltas_ensure_fresh {s : Store} {u : Nat} {today : String}
    (yesterday : String) (hfresh : getDailyStats s u today = none)
    (hlog : todayDeltas s u today = []) :
    todayDeltas (ensureToday s u today yesterday).2 u today
      = if bonusEligible s u yesterday then [(20 : ℚ)] else [] := by
  rw [ensureToday_fresh yesterday hfresh]
  unfold todayDeltas at hlog ⊢
  dsimp only
  rw [List.filter_append, List.map_append, List.map_eq_nil.mp hlog]
  cases hel : bonusEligible s u yesterday
  · simp [hel]
  · simp [hel]

/-! ## Claim theorems -/

/-- C1: for every sequence of `recordActivity` calls for one user on a fresh
day, the stored daily energy equals the clamp-applied running sum
`max(0, previousEnergy + points)` over the submitted deltas in order, starting
from the energy `ensureToday` created (0 or 20); it is never negative; it is
reproducible by replaying the clamp rule from 0 over the log entries
attributed to that date; and the log stores the true signed deltas even when
the energy update clamps. -/
theorem energy_clamped_replay (s : Store) (u : Nat) (today yesterday : String)
    (acts : List (String × ℚ))
    (hfresh : getDailyStats s u today = none)
    (hlog : todayDeltas s u today = []) :
    ∃ st, getDailyStats (runActivities (ensureToday s u today yesterday).2
        u today yesterday acts) u today = some st ∧
      st.energy = (acts.map Prod.snd).foldl clampAdd
        (if bonusEligible s u yesterday then 20 else 0) ∧
      0 ≤ st.energy ∧
      st.energy = (todayDeltas (runActivities (ensureToday s u today
        yesterday).2 u today yesterday acts) u today).foldl clampAdd 0 ∧
      todayDeltas (runActivities (ensureToday s u today yesterday).2 u today
          yesterday acts) u today
        = (if bonusEligible s u yesterday then [(20 : ℚ)] else [])
            ++ acts.map Prod.snd := by
  have hst0 : getDailyStats (ensureToday s u today yesterday).2 u today =
      some ⟨u, today, if bonusEligible s u yesterday then 20 else 0, false,
        bonusEligible s u yesterday⟩ := by
    rw [← ensureToday_fst, ensureToday_fresh yesterday hfresh]
  obtain ⟨st, h1, h2, h3, _, _⟩ :=
    runActivities_inv u today yesterday acts _ _ hst0
  have hdel : todayDeltas (runActivities (ensureToday s u today yesterday).2
      u today yesterday acts) u today
      = (if bonusEligible s u yesterday then [(20 : ℚ)] else [])
          ++ acts.map Prod.snd := by
    rw [h3, todayDeltas_ensure_fresh yesterday hfresh hlog]
  have he0 : (0 : ℚ) ≤ if bonusEligible s u yesterday then 20 else 0 := by
    cases hel : bonusEligible s u yesterday <;> simp
  refine ⟨st, h1, h2, ?_, ?_, hdel⟩
  · rw [h2]
    exact foldl_clampAdd_nonneg _ _ he0
  · rw [h2, hdel, List.foldl_append]
    cases hel : bonusEligible s u yesterday
    · simp
    · simp only [if_true]
      have h20 : List.foldl clampAdd 0 [(20 : ℚ)] =
          (if true = true then (20 : ℚ) else 0) := by
        simp [clampAdd]
      rw [h20]
      simp

/-- Witness for C1: empty store, fresh day, one 70-point activity. -/
theorem energy_clamped_replay_witness :
    ∃ st, getDailyStats (runActivities (ensureToday ⟨[], []⟩ 1 "d2" "d1").2
        1 "d2" "d1" [("read", 70)]) 1 "d2" = some st ∧
      st.energy = ([("read", (70 : ℚ))].map Prod.snd).foldl clampAdd
        (if bonusEligible ⟨[], []⟩ 1 "d1" then 20 else 0) ∧
      0 ≤ st.energy ∧
      st.energy = (todayDeltas (runActivities (ensureToday ⟨[], []⟩ 1 "d2"
        "d1").2 1 "d2" "d1" [("read", 70)]) 1 "d2").foldl clampAdd 0 ∧
      todayDeltas (runActivities (ensureToday ⟨[], []⟩ 1 "d2" "d1").2 1 "d2"
          "d1" [("read", 70)]) 1 "d2"
        = (if bonusEligible ⟨[], []⟩ 1 "d1" then [(20 : ℚ)] else [])
            ++ [("read", (70 : ℚ))].map Prod.snd :=
  energy_clamped_replay ⟨[], []⟩ 1 "d2" "d1" [("read", 70)] rfl rfl

/-- C2: once a day's row has `battery_earned = true`, a further
`recordActivity` call on that day (any points, negative included) leaves it
true and reports `newBattery = false`, and any sequence of further calls on
that day also leaves it true — so the flag can never be unset, and can never
flip false-to-true a second time. -/
theorem batteryEarned_monotonic (s : Store) (u : Nat)
    (today yesterday ty : String) (p : ℚ) (acts : List (String × ℚ))
    (r : DailyStat) (h : getDailyStats s u today = some r)
    (hbat : r.battery_earned = true) :
    (∃ res s', recordActivity s u today yesterday ty p = (some res, s') ∧
      res.newBattery = false ∧
      ∃ r', getDailyStats s' u today = some r' ∧ r'.battery_earned = true) ∧
    ∃ r', getDailyStats (runActivities s u today yesterday acts) u today
        = some r' ∧ r'.battery_earned = true := by
  constructor
  · refine ⟨_, _, recordActivity_spec yesterday ty p h, ?_, ?_⟩
    · show (!r.battery_earned && _) = false
      rw [hbat]
      rfl
    · refine ⟨_, getDailyStats_accrualStore s u today ty p r, ?_⟩
      show (r.battery_earned || _) = true
      rw [hbat]
      rfl
  · obtain ⟨r', h1, _, _, _, h5⟩ :=
      runActivities_inv u today yesterday acts s r h
    exact ⟨r', h1, h5 hbat⟩

/-- Witness for C2: a day that already has its battery, hit with a −5
penalty. -/
theorem batteryEarned_monotonic_witness :
    (∃ res s', recordActivity ⟨[⟨1, "d2", 70, true, false⟩], []⟩ 1 "d2" "d1"
        "quiz" (-5) = (some res, s') ∧
      res.newBattery = false ∧
      ∃ r', getDailyStats s' 1 "d2" = some r' ∧ r'.battery_earned = true) ∧
    ∃ r', getDailyStats (runActivities ⟨[⟨1, "d2", 70, true, false⟩], []⟩ 1
        "d2" "d1" [("quiz", -5)]) 1 "d2" = some r' ∧
      r'.battery_earned = true :=
  batteryEarned_monotonic ⟨[⟨1, "d2", 70, true, false⟩], []⟩ 1 "d2" "d1"
    "quiz" (-5) [("quiz", -5)] ⟨1, "d2", 70, true, false⟩ rfl rfl

/-- C3: on first touch of a new (user, today), `ensureToday` is eligible for
the bonus exactly when yesterday's row exists with `battery_earned = true` and
the battery balance is strictly positive; when eligible it creates the row
with energy 20, `battery_earned = false`, `bonus_applied = true` and appends
exactly one "Battery Bonus" +20 entry dated today; otherwise it creates the
0-energy row with both flags false and appends nothing. -/
theorem ensureToday_first_touch (s : Store) (u : Nat)
    (today yesterday : String) (h : getDailyStats s u today = none) :
    (bonusEligible s u yesterday = true ↔
      ((∃ y, getDailyStats s u yesterday = some y ∧ y.battery_earned = true) ∧
        0 < batteryBalance s u)) ∧
    ensureToday s u today yesterday =
      (some ⟨u, today, if bonusEligible s u yesterday then 20 else 0, false,
         bonusEligible s u yesterday⟩,
       ⟨s.daily ++ [⟨u, today, if bonusEligible s u yesterday then 20 else 0,
          false, bonusEligible s u yesterday⟩],
        s.log ++ if bonusEligible s u yesterday
          then [⟨u, "Battery Bonus", 20, today⟩] else []⟩) := by
  refine ⟨?_, ensureToday_fresh yesterday h⟩
  unfold bonusEligible
  cases hy : getDailyStats s u yesterday with
  | none => simp
  | some y => simp [Bool.and_eq_true, decide_eq_true_iff]

/-- Witness for C3: yesterday earned a battery and the balance is 1, so the
bonus branch is taken. -/
theorem ensureToday_first_touch_witness :
    (bonusEligible ⟨[⟨1, "d1", 70, true, false⟩], [⟨1, "read", 70, "d1"⟩]⟩ 1
        "d1" = true ↔
      ((∃ y, getDailyStats ⟨[⟨1, "d1", 70, true, false⟩],
          [⟨1, "read", 70, "d1"⟩]⟩ 1 "d1" = some y ∧
          y.battery_earned = true) ∧
        0 < batteryBalance ⟨[⟨1, "d1", 70, true, false⟩],
          [⟨1, "read", 70, "d1"⟩]⟩ 1)) ∧
    ensureToday ⟨[⟨1, "d1", 70, true, false⟩], [⟨1, "read", 70, "d1"⟩]⟩ 1 "d2"
        "d1" =
      (some ⟨1, "d2", if bonusEligible ⟨[⟨1, "d1", 70, true, false⟩],
          [⟨1, "read", 70, "d1"⟩]⟩ 1 "d1" then 20 else 0, false,
         bonusEligible ⟨[⟨1, "d1", 70, true, false⟩],
          [⟨1, "read", 70, "d1"⟩]⟩ 1 "d1"⟩,
       ⟨[⟨1, "d1", 70, true, false⟩] ++ [⟨1, "d2",
          if bonusEligible ⟨[⟨1, "d1", 70, true, false⟩],
            [⟨1, "read", 70, "d1"⟩]⟩ 1 "d1" then 20 else 0, false,
          bonusEligible ⟨[⟨1, "d1", 70, true, false⟩],
            [⟨1, "read", 70, "d1"⟩]⟩ 1 "d1"⟩],
        [⟨1, "read", 70, "d1"⟩] ++ if bonusEligible ⟨[⟨1, "d1", 70, true,
            false⟩], [⟨1, "read", 70, "d1"⟩]⟩ 1 "d1"
          then [⟨1, "Battery Bonus", 20, "d2"⟩] else []⟩) :=
  ensureToday_first_touch ⟨[⟨1, "d1", 70, true, false⟩],
    [⟨1, "read", 70, "d1"⟩]⟩ 1 "d2" "d1" rfl

/-- C4: on a day whose row exists, `recordActivity` sets `battery_earned` to
`old || (65 ≤ clamped candidate)` — i.e. it is newly set exactly when the
clamped candidate reaches `BAT_GOAL` and the flag was not already set — the
result's `newBattery` is true iff this call flipped the flag, and the result
reports the lifetime log sum, the updated daily energy, the battery balance of
the resulting store, and today's battery flag. -/
theorem recordActivity_threshold (s : Store) (u : Nat)
    (today yesterday ty : String) (p : ℚ) (stats : DailyStat)
    (h : getDailyStats s u today = some stats) :
    recordActivity s u today yesterday ty p =
      (some { totalEnergy := getTotalEnergy s u + p
              todayEnergy := max 0 (stats.energy + p)
              batteries := batteryBalance (accrualStore s u today ty p stats) u
              batEarned := stats.battery_earned ||
                decide (BAT_GOAL ≤ max 0 (stats.energy + p))
              newBattery := !stats.battery_earned &&
                decide (BAT_GOAL ≤ max 0 (stats.energy + p)) },
       accrualStore s u today ty p stats) ∧
    getDailyStats (accrualStore s u today ty p stats) u today =
      some ⟨u, today, max 0 (stats.energy + p),
        stats.battery_earned || decide (BAT_GOAL ≤ max 0 (stats.energy + p)),
        stats.bonus_applied⟩ ∧
    getTotalEnergy (accrualStore s u today ty p stats) u =
      getTotalEnergy s u + p :=
  ⟨recordActivity_spec yesterday ty p h,
   getDailyStats_accrualStore s u today ty p stats,
   getTotalEnergy_accrualStore s u today ty p stats⟩

/-- Witness for C4: a 64-energy day receives one point and crosses the
threshold. -/
theorem recordActivity_threshold_witness :
    recordActivity ⟨[⟨1, "d2", 64, false, false⟩], []⟩ 1 "d2" "d1" "quiz" 1 =
      (some { totalEnergy := getTotalEnergy ⟨[⟨1, "d2", 64, false, false⟩],
                []⟩ 1 + 1
              todayEnergy := max 0 ((64 : ℚ) + 1)
              batteries := batteryBalance (accrualStore ⟨[⟨1, "d2", 64, false,
                false⟩], []⟩ 1 "d2" "quiz" 1 ⟨1, "d2", 64, false, false⟩) 1
              batEarned := false || decide (BAT_GOAL ≤ max 0 ((64 : ℚ) + 1))
              newBattery := !false && decide (BAT_GOAL ≤ max 0 ((64 : ℚ) + 1)) },
       accrualStore ⟨[⟨1, "d2", 64, false, false⟩], []⟩ 1 "d2" "quiz" 1
         ⟨1, "d2", 64, false, false⟩) ∧
    getDailyStats (accrualStore ⟨[⟨1, "d2", 64, false, false⟩], []⟩ 1 "d2"
        "quiz" 1 ⟨1, "d2", 64, false, false⟩) 1 "d2" =
      some ⟨1, "d2", max 0 ((64 : ℚ) + 1),
        false || decide (BAT_GOAL ≤ max 0 ((64 : ℚ) + 1)), false⟩ ∧
    getTotalEnergy (accrualStore ⟨[⟨1, "d2", 64, false, false⟩], []⟩ 1 "d2"
        "quiz" 1 ⟨1, "d2", 64, false, false⟩) 1 =
      getTotalEnergy ⟨[⟨1, "d2", 64, false, false⟩], []⟩ 1 + 1 :=
  recordActivity_threshold ⟨[⟨1, "d2", 64, false, false⟩], []⟩ 1 "d2" "d1"
    "quiz" 1 ⟨1, "d2", 64, false, false⟩ rfl

/-- C5: `ensureToday` is idempotent per (user, date): when the row exists the
call returns it with the store untouched, and an immediately repeated call
returns the identical row and the identical store (no new row, no new log
entries, no duplicate bonus). -/
theorem ensureToday_idempotent (s : Store) (u : Nat)
    (today yesterday : String) :
    (∀ r, getDailyStats s u today = some r →
      ensureToday s u today yesterday = (some r, s)) ∧
    ensureToday (ensureToday s u today yesterday).2 u today yesterday =
      ((ensureToday s u today yesterday).1,
       (ensureToday s u today yesterday).2) := by
  constructor
  · intro r hr
    exact ensureToday_of_exists yesterday hr
  · obtain ⟨r, hr⟩ := ensureToday_store_record s u today yesterday
    rw [ensureToday_of_exists yesterday hr, ensureToday_fst s u today
      yesterday, hr]

/-- Witness for C5 at an empty store (the first call creates the row; the
repeat call changes nothing). -/
theorem ensureToday_idempotent_witness :
    ensureToday ⟨[⟨1, "d2", 5, false, false⟩], []⟩ 1 "d2" "d1" =
      (some ⟨1, "d2", 5, false, false⟩, ⟨[⟨1, "d2", 5, false, false⟩], []⟩) ∧
    ensureToday (ensureToday ⟨[], []⟩ 1 "d2" "d1").2 1 "d2" "d1" =
      ((ensureToday ⟨[], []⟩ 1 "d2" "d1").1,
       (ensureToday ⟨[], []⟩ 1 "d2" "d1").2) :=
  ⟨(ensureToday_idempotent ⟨[⟨1, "d2", 5, false, false⟩], []⟩ 1 "d2" "d1").1
     ⟨1, "d2", 5, false, false⟩ rfl,
   (ensureToday_idempotent ⟨[], []⟩ 1 "d2" "d1").2⟩

/-- C6: in every store reachable from an empty database by the engine's
operations, the battery balance of every user is the count of
`battery_earned` rows minus the count of `bonus_applied` rows, and it is never
negative — a bonus is only granted when the balance at grant time is strictly
positive. -/
theorem batteryBalance_nonneg (s : Store) (h : Reachable s) (v : Nat) :
    batteryBalance s v = (countEarned s v : Int) - (countUsed s v : Int) ∧
      0 ≤ batteryBalance s v :=
  ⟨rfl, (reachable_inv h).2 v⟩

/-- Witness for C6: the store after one 70-point activity of a new user on a
fresh day. -/
theorem batteryBalance_nonneg_witness :
    batteryBalance (recordActivity ⟨[], []⟩ 1 "d2" "d1" "read" 70).2 1 =
        (countEarned (recordActivity ⟨[], []⟩ 1 "d2" "d1" "read" 70).2 1 :
          Int) - (countUsed (recordActivity ⟨[], []⟩ 1 "d2" "d1" "read"
          70).2 1 : Int) ∧
      0 ≤ batteryBalance (recordActivity ⟨[], []⟩ 1 "d2" "d1" "read" 70).2 1 :=
  batteryBalance_nonneg (recordActivity ⟨[], []⟩ 1 "d2" "d1" "read" 70).2
    (Reachable.record 1 "d2" "d1" "read" 70 Reachable.empty) 1

/-- C7 counterexample: with the daily-record upsert throwing after a
successful activity-log insert, `POST /api/log` ends in an error state that
differs from the prior state — the appended log entry remains (orphaned) and
the daily row is not updated, refuting "the log append and the daily-record
update commit together or not at all" and "on any storage error the prior
state is unchanged". -/
theorem atomicity_counterexample :
    recordActivityF ⟨false, false, false, true⟩
        ⟨[⟨1, "d2", 0, false, false⟩], []⟩ 1 "d2" "d1" "read" 5 =
      Except.error ⟨[⟨1, "d2", 0, false, false⟩], [⟨1, "read", 5, "d2"⟩]⟩ ∧
    (⟨[⟨1, "d2", 0, false, false⟩], [⟨1, "read", 5, "d2"⟩]⟩ : Store) ≠
      ⟨[⟨1, "d2", 0, false, false⟩], []⟩ := by
  constructor
  · rfl
  · intro hc
    have hlen := congrArg (fun st : Store => st.log.length) hc
    simp at hlen

/-- C7 amended: each store statement commits on its own and an exception
aborts the remaining statements without rolling back completed ones: a
failing activity-log insert leaves the store unchanged; a failing daily
upsert after a successful log insert leaves the orphaned log entry; and in
`ensureToday`, a failing bonus-log insert after the row insert leaves the
created row without its bonus entry. -/
theorem failure_keeps_completed_writes (s : Store) (u : Nat)
    (today yesterday ty : String) (p : ℚ) (stats : DailyStat)
    (h : getDailyStats s u today = some stats) :
    recordActivityF ⟨false, false, true, false⟩ s u today yesterday ty p =
      Except.error s ∧
    recordActivityF ⟨false, false, false, true⟩ s u today yesterday ty p =
      Except.error (addLog s ⟨u, ty, p, today⟩) ∧
    ∀ (s' : Store) (u' : Nat) (t' y' : String),
      getDailyStats s' u' t' = none → bonusEligible s' u' y' = true →
      ensureTodayF ⟨false, true, false, false⟩ s' u' t' y' =
        Except.error (upsertDaily s' u' t' 20 false true) := by
  refine ⟨?_, ?_, ?_⟩
  · unfold recordActivityF ensureTodayF
    rw [h]
    rfl
  · unfold recordActivityF ensureTodayF
    rw [h]
    dsimp only
    rw [getDailyStats_addLog, h]
    rfl
  · intro s' u' t' y' hn he
    unfold ensureTodayF
    rw [hn]
    dsimp only
    rw [he]
    rfl

/-- Witness for the amended C7: a failing log insert leaves the store
unchanged, and a failing bonus-log insert strands the created row. -/
theorem failure_keeps_completed_writes_witness :
    recordActivityF ⟨false, false, true, false⟩
        ⟨[⟨1, "d2", 0, false, false⟩], []⟩ 1 "d2" "d1" "read" 5 =
      Except.error ⟨[⟨1, "d2", 0, false, false⟩], []⟩ ∧
    ensureTodayF ⟨false, true, false, false⟩
        ⟨[⟨1, "d1", 70, true, false⟩], []⟩ 1 "d2" "d1" =
      Except.error (upsertDaily ⟨[⟨1, "d1", 70, true, false⟩], []⟩ 1 "d2" 20
        false true) :=
  ⟨(failure_keeps_completed_writes ⟨[⟨1, "d2", 0, false, false⟩], []⟩ 1 "d2"
      "d1" "read" 5 ⟨1, "d2", 0, false, false⟩ rfl).1,
   (failure_keeps_completed_writes ⟨[⟨1, "d2", 0, false, false⟩], []⟩ 1 "d2"
      "d1" "read" 5 ⟨1, "d2", 0, false, false⟩ rfl).2.2
     ⟨[⟨1, "d1", 70, true, false⟩], []⟩ 1 "d2" "d1" rfl (by decide)⟩

/-- C8 counterexample: the spec's validation rule rejects a non-integer
points value (2.5), but the code's check `!type || points === undefined`
accepts it — so validation does not reject "exactly when ... points is
missing/not an integer". -/
theorem validation_spec_mismatch :
    specValidationRejects (.str "read") (.num (mkRat 5 2)) = true ∧
    jsValidationRejects (.str "read") (.num (mkRat 5 2)) = false := by
  constructor
  · show (((("read" : String) == "") : Bool) ||
      decide ((mkRat 5 2).den ≠ 1)) = true
    rw [Bool.or_eq_true]
    right
    rw [decide_eq_true_iff]
    decide
  · rfl

/-- C8 amended: `POST /api/log` rejects with HTTP 400 exactly when the type
field is JavaScript-falsy (absent or empty) or the points field is undefined
(absent); the rejection happens before any storage access and leaves the
store unchanged. Non-empty types together with any provided points value —
integer or not, even null — pass the check. -/
theorem validation_exact :
    (∀ ty points : JsVal, jsValidationRejects ty points = true ↔
      (jsTruthy ty = false ∨ points = JsVal.undefined)) ∧
    (∀ (s : Store) (u : Nat) (today yesterday ty : String)
        (points : ReqPoints), (ty = "" ∨ points = ReqPoints.undefined) →
      postLog s u today yesterday ty points = (.badRequest, s)) := by
  constructor
  · intro ty points
    unfold jsValidationRejects
    rw [Bool.or_eq_true, Bool.not_eq_true']
    constructor
    · rintro (h | h)
      · exact Or.inl h
      · exact Or.inr (by rwa [beq_iff_eq] at h)
    · rintro (h | h)
      · exact Or.inl h
      · exact Or.inr (by rwa [beq_iff_eq])
  · intro s u today yesterday ty points hval
    unfold postLog
    have hc : (ty == "" || points == ReqPoints.undefined) = true := by
      rcases hval with h | h <;> simp [h]
    rw [if_pos hc]

/-- Witness for the amended C8: an empty type is rejected with no state
change, and the iff applied at a concrete truthy/defined pair. -/
theorem validation_exact_witness :
    (jsValidationRejects (.str "read") (.num 0) = true ↔
      (jsTruthy (.str "read") = false ∨ JsVal.num 0 = JsVal.undefined)) ∧
    postLog ⟨[], []⟩ 1 "d2" "d1" "" (.num 3) = (.badRequest, ⟨[], []⟩) :=
  ⟨validation_exact.1 (.str "read") (.num 0),
   validation_exact.2 ⟨[], []⟩ 1 "d2" "d1" "" (.num 3) (Or.inl rfl)⟩

/-- C10: the code's validation accepts any truthy type and any points other
than `undefined` — 0, non-integers, numeric strings and `null` all pass; a
non-integer points value is logged and combined into the day's energy as-is
(the stored energy 5/2 is not an integer); and with `points = null` the
request passes validation, `ensureToday` runs and its effects persist, and
the call then fails at the log insert, returning the post-`ensureToday`
store. -/
theorem lenient_validation_behavior :
    (∀ ty points : JsVal, jsTruthy ty = true → points ≠ JsVal.undefined →
      jsValidationRejects ty points = false) ∧
    (jsValidationRejects (.str "read") (.num 0) = false ∧
     jsValidationRejects (.str "read") (.num (mkRat 5 2)) = false ∧
     jsValidationRejects (.str "read") (.str "5") = false ∧
     jsValidationRejects (.str "read") .null = false ∧
     jsValidationRejects (.str "read") .undefined = true) ∧
    (∀ (s : Store) (u : Nat) (today yesterday ty : String) (q : ℚ)
        (stats : DailyStat), getDailyStats s u today = some stats →
      getDailyStats ((recordActivity s u today yesterday ty q).2) u today =
        some ⟨u, today, max 0 (stats.energy + q),
          stats.battery_earned ||
            decide (BAT_GOAL ≤ max 0 (stats.energy + q)),
          stats.bonus_applied⟩) ∧
    ((¬ ∃ n : ℤ, (5 / 2 : ℚ) = (n : ℚ)) ∧
      getDailyStats ((recordActivity ⟨[⟨1, "d2", 0, false, false⟩], []⟩ 1
          "d2" "d1" "hw" (5 / 2)).2) 1 "d2" =
        some ⟨1, "d2", 5 / 2, false, false⟩) ∧
    (∀ (s : Store) (u : Nat) (today yesterday ty : String), ty ≠ "" →
      postLog s u today yesterday ty .null =
        (.storageFailure, (ensureToday s u today yesterday).2)) := by
  refine ⟨?_, ⟨rfl, rfl, rfl, rfl, rfl⟩, ?_, ⟨?_, ?_⟩, ?_⟩
  · intro ty points h1 h2
    unfold jsValidationRejects
    rw [h1]
    simp [h2]
  · intro s u today yesterday ty q stats h
    rw [recordActivity_store yesterday ty q h]
    exact getDailyStats_accrualStore s u today ty q stats
  · rintro ⟨n, hn⟩
    rw [div_eq_iff (by norm_num : (2 : ℚ) ≠ 0)] at hn
    have hz : (5 : ℤ) = n * 2 := by exact_mod_cast hn
    omega
  · have hpos : (0 : ℚ) ≤ 5 / 2 := by norm_num
    have hmax : max (0 : ℚ) ((0 : ℚ) + 5 / 2) = 5 / 2 := by
      rw [zero_add]
      exact max_eq_right hpos
    have hflag : decide (BAT_GOAL ≤ (5 / 2 : ℚ)) = false := by
      apply decide_eq_false
      unfold BAT_GOAL
      norm_num
    rw [@recordActivity_store ⟨[⟨1, "d2", 0, false, false⟩], []⟩ 1 "d2" "d1"
      "hw" (5 / 2) ⟨1, "d2", 0, false, false⟩ rfl]
    rw [getDailyStats_accrualStore]
    dsimp only
    rw [hmax, hflag]
    rfl
  · intro s u today yesterday ty hty
    unfold postLog
    have hcond : (ty == "" || (ReqPoints.null == ReqPoints.undefined))
        = false := by
      simp [hty]
    rw [hcond]
    rfl

/-- Witness for C10: the general validation clause at a concrete truthy type
and defined points, and the null path at a concrete bonus-granting store. -/
theorem lenient_validation_behavior_witness :
    jsValidationRejects (.str "read") .null = false ∧
    postLog ⟨[⟨1, "d1", 70, true, false⟩], []⟩ 1 "d2" "d1" "hw" .null =
      (.storageFailure,
        (ensureToday ⟨[⟨1, "d1", 70, true, false⟩], []⟩ 1 "d2" "d1").2) :=
  ⟨lenient_validation_behavior.1 (.str "read") .null rfl (by simp),
   lenient_validation_behavior.2.2.2.2 ⟨[⟨1, "d1", 70, true, false⟩], []⟩ 1
     "d2" "d1" "hw" (by simp)⟩
